import Mathlib

/-!
Verification of `xalpha/multiple.py` (fund-combination management: the `mul`
and `mulfix` classes) against its natural-language specification.

The embedding below translates the Python source into Lean:
* dates are `Nat` (the source only compares and sorts dates),
* monetary amounts and prices are `ℚ` (exact arithmetic in place of floats),
* a cash-flow table (pandas DataFrame with columns `date`, `cash`) is a
  `List (Nat × ℚ)` of rows in frame order,
* methods that can raise become functions into `Except` / `Option`.

External collaborators (`trade`, `dailyreport`, `briefdailyreport`,
`bottleneck`, `turnoverrate`, `myround`, `cashinfo`) live in other modules of
the repository; where a claim depends on one, it is either kept abstract as a
function parameter or modelled from the spec (doc comments say which).
-/

namespace Xalpha

/-- One row of a fund's daily report (`fund.dailyreport(date)`, external
`xalpha.trade`), with the 13 columns recognized by `combsummary`:
基金名称, 基金代码, 当日净值, 单位成本, 持有份额, 基金现值, 基金总申购,
历史最大占用, 基金持有成本, 基金分红与赎回, 换手率, 基金收益总额, 投资收益率.
Value-bearing columns are `ℚ`. -/
structure Report where
  name : String
  code : String
  unitvalue : ℚ
  unitcost : ℚ
  holdshare : ℚ
  currentvalue : ℚ
  purchase : ℚ
  btnk : ℚ
  cost : ℚ
  output : ℚ
  turnover : ℚ
  earn : ℚ
  rate : ℚ

/-- Column lookup `row[prop]` on a daily-report row: `some` for the
value-bearing recognized columns, `none` (pandas `KeyError`) otherwise. -/
def reportField (r : Report) (prop : String) : Option ℚ :=
  if prop = "当日净值" then some r.unitvalue
  else if prop = "单位成本" then some r.unitcost
  else if prop = "持有份额" then some r.holdshare
  else if prop = "基金现值" then some r.currentvalue
  else if prop = "基金总申购" then some r.purchase
  else if prop = "历史最大占用" then some r.btnk
  else if prop = "基金持有成本" then some r.cost
  else if prop = "基金分红与赎回" then some r.output
  else if prop = "换手率" then some r.turnover
  else if prop = "基金收益总额" then some r.earn
  else if prop = "投资收益率" then some r.rate
  else none

/-- Modelled from the spec: a Position ("trade object", external
`xalpha.trade.trade`) is opaque to this core.  It owns a cash-flow table
(`cftable`, rows `(date, cash)`) and exposes point-in-time views:
`dailyreport date` (the single report row `dailyreport(date).iloc[0]`) and
`briefcurrentvalue date` (= `briefdailyreport(date).get('currentvalue', 0)`). -/
structure FundTrade where
  cftable : List (Nat × ℚ)
  dailyreport : Nat → Report
  briefcurrentvalue : Nat → ℚ

/-- The amount the merged table assigns to date `d`: the sum of every `cash`
amount occurring on date `d` across the collected rows (`dtlist` in
`mul._mergecftb`): `sum([item[1] for item in dtlist if item[0] == date])`. -/
def daySum (dtlist : List (Nat × ℚ)) (d : Nat) : ℚ :=
  ((dtlist.filter (fun p => p.1 = d)).map Prod.snd).sum

/-- The `nndtlist` of `mul._mergecftb`: the distinct dates of the collected
rows in ascending order (`sorted(list(set([item[0] for item in dtlist])))`,
here `insertionSort` of `dedup`). -/
def sortedDates (dtlist : List (Nat × ℚ)) : List Nat :=
  List.insertionSort (· ≤ ·) (dtlist.map Prod.fst).dedup

/-- `mul._mergecftb`: collect every `(date, cash)` row of every fund's
`cftable`, list the distinct dates in ascending order, give each date the
sum of the amounts on it, and drop rows whose summed amount is `0`
(`df[df['cash'] != 0]`). -/
def mergecftb (tables : List (List (Nat × ℚ))) : List (Nat × ℚ) :=
  let dtlist := tables.flatten
  ((sortedDates dtlist).map (fun d => (d, daySum dtlist d))).filter
    (fun p => p.2 ≠ 0)

/-- The `mul` portfolio object: the tuple of positions and the merged
cash-flow table `totcftable` derived once at construction. -/
structure Mul where
  fundtradeobj : List FundTrade
  totcftable : List (Nat × ℚ)

/-- `mul.__init__` (with an explicit position collection): store the positions
and derive `totcftable = self._mergecftb()`. -/
def mulInit (fundtradeobj : List FundTrade) : Mul :=
  { fundtradeobj := fundtradeobj
    totcftable := mergecftb (fundtradeobj.map FundTrade.cftable) }

/-- The errors construction and reporting can surface.  `keyError` is the
pandas `KeyError` of a missing column; `indexError` the pandas `IndexError` of
`iloc` on an empty frame; `tradeBehaviorError` the `TradeBehaviorError('the
initial total cash is too low')` raise (the spec's `InsufficientCapitalError`). -/
inductive PortfolioError where
  | keyError
  | indexError
  | tradeBehaviorError
deriving DecidableEq

/-- The `for fund in self.fundtradeobj: res += fund.dailyreport().iloc[0][prop]`
loop of `mul.tot`: accumulate the column value of each fund's report as of the
external default date; the first missing column raises `KeyError`. -/
def totLoop (defaultDate : Nat) (prop : String) :
    List FundTrade → Except PortfolioError ℚ
  | [] => Except.ok 0
  | fund :: rest =>
    match reportField (fund.dailyreport defaultDate) prop with
    | some v => (totLoop defaultDate prop rest).map (fun s => v + s)
    | none => Except.error PortfolioError.keyError

/-- `mul.tot(prop, date)`: `res = 0; for fund: res += fund.dailyreport().iloc[0][prop]`.
The source calls `fund.dailyreport()` with NO argument, so every report is
taken as of the external default date (`yesterdayobj()` evaluated at
definition time), modelled by the extra parameter `defaultDate`; the `date`
parameter is accepted and ignored, exactly as in the source. -/
def tot (defaultDate : Nat) (m : Mul) (prop : String) (date : Nat) :
    Except PortfolioError ℚ :=
  totLoop defaultDate prop m.fundtradeobj

/-- The running "capital deployed" values `-(a_1 + … + a_k)`, `k = 1..n`, of a
list of cash amounts, starting from the already-negated accumulator `acc`. -/
def negCumSums (acc : ℚ) : List ℚ → List ℚ
  | [] => []
  | a :: rest => (acc - a) :: negCumSums (acc - a) rest

/-- Modelled from the spec: peak exposure ("bottleneck", external
`xalpha.trade.bottleneck`): the "maximum cumulative capital ever deployed into
a set of positions, computed ... from a cash-flow table" — the maximum, over
all prefixes of the table, of the negated running sum of the `cash` amounts
(`0` for the empty table, where nothing was ever deployed). -/
def bottleneck (cftable : List (Nat × ℚ)) : ℚ :=
  (negCumSums 0 (cftable.map Prod.snd)).foldr max 0

/-- One row of the `combsummary` frame.  The synthesized total row reports
unit net value, unit cost and shares held as missing (`float('NaN')`), hence
`Option ℚ` for those three columns. -/
structure Row where
  name : String
  code : String
  unitvalue : Option ℚ
  unitcost : Option ℚ
  holdshare : Option ℚ
  currentvalue : ℚ
  purchase : ℚ
  btnk : ℚ
  cost : ℚ
  output : ℚ
  turnover : ℚ
  earn : ℚ
  rate : ℚ

/-- A fund's daily-report row as a row of the `combsummary` frame. -/
def Report.toRow (r : Report) : Row :=
  { name := r.name, code := r.code, unitvalue := some r.unitvalue,
    unitcost := some r.unitcost, holdshare := some r.holdshare,
    currentvalue := r.currentvalue, purchase := r.purchase, btnk := r.btnk,
    cost := r.cost, output := r.output, turnover := r.turnover,
    earn := r.earn, rate := r.rate }

/-- `mul.combsummary(date)`: one report row per fund as of `date`, then a
synthesized total row (name `总计`, code `total`): summable columns are
column-wise sums over the fund rows; peak exposure and turnover rate are
recomputed from `totcftable` truncated to dates `≤ date`; the profit rate is
`round(tearn / tbtnk * 100, 4)`; unit value / unit cost / shares held are
`NaN`.  The result is sorted descending by `基金现值` (current value).
`turnoverrate` (external `xalpha.trade.turnoverrate`) and `pyround`
(Python's builttin `round(x, 4)`) are abstract parameters. -/
def combsummary (turnoverrate : List (Nat × ℚ) → Nat → ℚ) (pyround : ℚ → Nat → ℚ)
    (m : Mul) (date : Nat) : List Row :=
  let summarydf := m.fundtradeobj.map (fun fund => (fund.dailyreport date).toRow)
  let tb := m.totcftable.filter (fun p => p.1 ≤ date)
  let tbtnk := bottleneck tb
  let tearn := (summarydf.map Row.earn).sum
  let trow : Row :=
    { name := "总计", code := "total", unitvalue := none, unitcost := none,
      holdshare := none,
      currentvalue := (summarydf.map Row.currentvalue).sum,
      purchase := (summarydf.map Row.purchase).sum,
      btnk := tbtnk,
      cost := (summarydf.map Row.cost).sum,
      output := (summarydf.map Row.output).sum,
      turnover := turnoverrate tb date,
      earn := tearn,
      rate := pyround (tearn / tbtnk * 100) 4 }
  List.insertionSort (fun a b : Row => b.currentvalue ≤ a.currentvalue)
    (summarydf ++ [trow])

/-- The external `cashinfo` object: it exposes a date-indexed price series
(`cashobj.price`, rows `(date, netvalue)`, sorted ascending by date). -/
structure CashInfo where
  price : List (Nat × ℚ)

/-- `cashobj.price[cashobj.price['date'] <= date].iloc[-1].netvalue`: the most
recent price at or before `date`; `none` when no row qualifies (`iloc[-1]`
on an empty frame raises `IndexError`). -/
def priceAsOf (price : List (Nat × ℚ)) (date : Nat) : Option ℚ :=
  ((price.filter (fun p => p.1 ≤ date)).getLast?).map Prod.snd

/-- One iteration of the `mulfix._vcash` loop, for the row
`p = (date, delta)` of the merged table (rows `i = 1..n-1`):
`myround(delta / price-as-of-date)` when `delta < 0`, the raw `delta`
otherwise.  `myround` (external `xalpha.cons.myround`, the share-rounding
policy) is an abstract parameter. -/
def vcashStep (myround : ℚ → ℚ) (cashobj : CashInfo) (p : Nat × ℚ) : Option ℚ :=
  if p.2 < 0 then (priceAsOf cashobj.price p.1).map (fun nv => myround (p.2 / nv))
  else some p.2

/-- The `for i in range(len(totcftable) - 1)` loop of `mulfix._vcash`,
collecting `cashl` entries for the rows after the first; the first failing
price lookup aborts (pandas `IndexError`). -/
def vcashList (myround : ℚ → ℚ) (cashobj : CashInfo) :
    List (Nat × ℚ) → Option (List ℚ)
  | [] => some []
  | p :: rest =>
    (vcashStep myround cashobj p).bind fun v =>
      (vcashList myround cashobj rest).map fun vs => v :: vs

/-- `mulfix._vcash(totmoney, totcftable, cashobj)`: the virtual status table,
pairing every date of the merged table with its synthetic cash-leg quantity:
`totmoney + totcftable.iloc[0].cash` for the first row, then the loop values.
`none` models the `IndexError` of `totcftable.iloc[0]` on an empty merged
table, or of a failed price lookup. -/
def vcash (myround : ℚ → ℚ) (totmoney : ℚ) (totcftable : List (Nat × ℚ))
    (cashobj : CashInfo) : Option (List (Nat × ℚ)) :=
  match totcftable with
  | [] => none
  | (d0, a0) :: rest =>
    (vcashList myround cashobj rest).map
      (fun cashl => (d0, totmoney + a0) :: (rest.map Prod.fst).zip cashl)

/-- The `mulfix` closed-portfolio object: positions (with the synthetic cash
position appended), `totmoney`, and the collapsed aggregate table. -/
structure MulFix where
  fundtradeobj : List FundTrade
  totmoney : ℚ
  totcftable : List (Nat × ℚ)

/-- `mulfix.__init__`: derive the merged table (`super().__init__`), build the
virtual status table `nst = mulfix._vcash(...)`, build the synthetic cash
position `cashtrade = trade(cashobj, nst)` (external collaborator, abstract
parameter `mktrade`) and append it, then check
`btnk = bottleneck(self.totcftable); if btnk > totmoney: raise
TradeBehaviorError`, and finally replace the aggregate table with the single
row `(nst.iloc[0].date, -totmoney)`.  A raise means no object is produced. -/
def mulfixInit (myround : ℚ → ℚ)
    (mktrade : CashInfo → List (Nat × ℚ) → FundTrade)
    (fundtradeobj : List FundTrade) (totmoney : ℚ) (cashobj : CashInfo) :
    Except PortfolioError MulFix :=
  let m := mulInit fundtradeobj
  match vcash myround totmoney m.totcftable cashobj with
  | none => Except.error PortfolioError.indexError
  | some nst =>
    match nst with
    | [] => Except.error PortfolioError.indexError
    | (d0, _) :: _ =>
      let cashtrade := mktrade cashobj nst
      let newfunds := m.fundtradeobj ++ [cashtrade]
      let btnk := bottleneck m.totcftable
      if btnk > totmoney then Except.error PortfolioError.tradeBehaviorError
      else
        Except.ok
          { fundtradeobj := newfunds, totmoney := totmoney,
            totcftable := [(d0, -totmoney)] }

/-- `mulfix.unitvalue(date)`: `res = 0; for fund: res +=
fund.briefdailyreport(date).get('currentvalue', 0); return res / self.totmoney`. -/
def unitvalue (m : MulFix) (date : Nat) : ℚ :=
  (m.fundtradeobj.map (fun fund => fund.briefcurrentvalue date)).sum / m.totmoney

/-! ### Concrete positions for the closed evaluations below
(the trade history is the worked scenario of the spec: position A with
`[(d1, -100)]`, position B with `[(d1, -50), (d2, +30)]`, dates `d1 = 1`,
`d2 = 2`). -/

/-- A concrete daily-report row with current value `v`. -/
def demoReport (v : ℚ) : Report :=
  { name := "A", code := "X", unitvalue := 1, unitcost := 1, holdshare := 1,
    currentvalue := v, purchase := 0, btnk := 0, cost := 0, output := 0,
    turnover := 0, earn := 0, rate := 0 }

/-- A fund whose report depends on the queried date (current value = date),
so reports as of different dates differ. -/
def demoFund : FundTrade :=
  { cftable := [(1, -100)],
    dailyreport := fun d => demoReport (d : ℚ),
    briefcurrentvalue := fun d => (d : ℚ) }

/-- Position A of the spec's worked scenario. -/
def fundA : FundTrade :=
  { cftable := [(1, -100)],
    dailyreport := fun _ => demoReport 0,
    briefcurrentvalue := fun _ => 100 }

/-- Position B of the spec's worked scenario. -/
def fundB : FundTrade :=
  { cftable := [(1, -50), (2, 30)],
    dailyreport := fun _ => demoReport 0,
    briefcurrentvalue := fun _ => 20 }

/-- A stand-in for the externally built synthetic cash position. -/
def demoCashTrade : FundTrade :=
  { cftable := [],
    dailyreport := fun _ => demoReport 0,
    briefcurrentvalue := fun _ => 180 }

/-- A cash asset whose price is `1` from date `0` on. -/
def demoCashInfo : CashInfo := { price := [(0, 1)] }

/-- A stand-in external `trade(cashobj, nst)` builder for concrete runs. -/
def demoMkTrade : CashInfo → List (Nat × ℚ) → FundTrade := fun _ _ => demoCashTrade

/-! ### Helper lemmas about the merge -/

lemma sortedDates_sorted (l : List (Nat × ℚ)) :
    List.Sorted (· ≤ ·) (sortedDates l) :=
  List.sorted_insertionSort _ _

lemma sortedDates_nodup (l : List (Nat × ℚ)) : (sortedDates l).Nodup :=
  ((List.perm_insertionSort _ _).nodup_iff).mpr (List.nodup_dedup _)

lemma sortedDates_mem {l : List (Nat × ℚ)} {d : Nat} :
    d ∈ sortedDates l ↔ d ∈ l.map Prod.fst := by
  rw [sortedDates, (List.perm_insertionSort _ _).mem_iff, List.mem_dedup]

lemma sortedDates_pairwise_lt (l : List (Nat × ℚ)) :
    List.Pairwise (· < ·) (sortedDates l) :=
  ((sortedDates_sorted l).and (sortedDates_nodup l)).imp
    (fun h => lt_of_le_of_ne h.1 h.2)

lemma mem_mergecftb {tables : List (List (Nat × ℚ))} {d : Nat} {a : ℚ} :
    (d, a) ∈ mergecftb tables ↔
      d ∈ tables.flatten.map Prod.fst ∧ a = daySum tables.flatten d
        ∧ daySum tables.flatten d ≠ 0 := by
  simp only [mergecftb, List.mem_filter, decide_eq_true_eq]
  constructor
  · rintro ⟨hmem, hne⟩
    obtain ⟨d', hd', heq⟩ := List.mem_map.mp hmem
    obtain ⟨h1, h2⟩ := Prod.mk.injEq .. |>.mp heq
    subst h1; subst h2
    exact ⟨sortedDates_mem.mp hd', rfl, hne⟩
  · rintro ⟨hd, rfl, hne⟩
    exact ⟨List.mem_map.mpr ⟨d, sortedDates_mem.mpr hd, rfl⟩, hne⟩

/-- C4 (first conjunct of its theorem): the merged table is strictly
ascending by date. -/
lemma mergecftb_pairwise (tables : List (List (Nat × ℚ))) :
    List.Pairwise (fun p q : Nat × ℚ => p.1 < q.1) (mergecftb tables) := by
  apply List.Pairwise.sublist (List.filter_sublist _)
  exact List.pairwise_map.mpr (sortedDates_pairwise_lt tables.flatten)

lemma daySum_perm {l1 l2 : List (Nat × ℚ)} (h : l1.Perm l2) (d : Nat) :
    daySum l1 d = daySum l2 d :=
  ((h.filter _).map Prod.snd).sum_eq

lemma sortedDates_perm_eq {l1 l2 : List (Nat × ℚ)} (h : l1.Perm l2) :
    sortedDates l1 = sortedDates l2 := by
  refine List.eq_of_perm_of_sorted ?_ (sortedDates_sorted l1) (sortedDates_sorted l2)
  exact (List.perm_insertionSort _ _).trans
    (((h.map _).dedup).trans (List.perm_insertionSort _ _).symm)

lemma list_sum_map_add {α : Type} (l : List α) (f g : α → ℚ) :
    (l.map (fun x => f x + g x)).sum = (l.map f).sum + (l.map g).sum := by
  induction l with
  | nil => simp
  | cons x xs ih => simp only [List.map_cons, List.sum_cons, ih]; ring

lemma sum_map_ite_eq {ds : List Nat} (hnd : ds.Nodup) {a : Nat} (ha : a ∈ ds)
    (c : ℚ) : (ds.map (fun d => if a = d then c else 0)).sum = c := by
  induction ds with
  | nil => cases ha
  | cons e es ih =>
    rcases List.mem_cons.mp ha with rfl | ha'
    · simp only [List.map_cons, List.sum_cons]
      rw [if_pos trivial]
      have hz : (es.map (fun d => if a = d then c else 0)).sum = 0 := by
        refine List.sum_eq_zero ?_
        intro x hx
        obtain ⟨d, hd, rfl⟩ := List.mem_map.mp hx
        have hne : a ≠ d := fun hh => (List.nodup_cons.mp hnd).1 (hh ▸ hd)
        simp [hne]
      rw [hz, add_zero]
    · have hne : a ≠ e := by
        rintro rfl
        exact (List.nodup_cons.mp hnd).1 ha'
      simp only [List.map_cons, List.sum_cons, if_neg hne, zero_add]
      exact ih (List.nodup_cons.mp hnd).2 ha'

lemma daySum_cons (p : Nat × ℚ) (l : List (Nat × ℚ)) (d : Nat) :
    daySum (p :: l) d = (if p.1 = d then p.2 else 0) + daySum l d := by
  by_cases h : p.1 = d <;> simp [daySum, List.filter_cons, h]

lemma sum_fiberwise (l : List (Nat × ℚ)) (ds : List Nat) (hnd : ds.Nodup)
    (hcov : ∀ p ∈ l, p.1 ∈ ds) :
    (ds.map (fun d => daySum l d)).sum = (l.map Prod.snd).sum := by
  induction l with
  | nil => simp [daySum]
  | cons p rest ih =>
    have h1 : (ds.map (fun d => daySum (p :: rest) d)).sum
        = (ds.map (fun d => (if p.1 = d then p.2 else 0) + daySum rest d)).sum := by
      refine congrArg _ (List.map_congr_left ?_)
      intro d _
      rw [daySum_cons]
    rw [h1, list_sum_map_add, sum_map_ite_eq hnd (hcov p (List.mem_cons_self p rest)),
      ih (fun q hq => hcov q (List.mem_cons_of_mem p hq))]
    simp

lemma sum_filter_snd_ne_zero (l : List (Nat × ℚ)) :
    ((l.filter (fun p => p.2 ≠ 0)).map Prod.snd).sum = (l.map Prod.snd).sum := by
  induction l with
  | nil => rfl
  | cons p rest ih =>
    rw [List.filter_cons]
    by_cases h : p.2 = 0
    · rw [if_neg (by simp [h]), ih]
      simp [h]
    · rw [if_pos (by simp [h])]
      simp only [List.map_cons, List.sum_cons, ih]

lemma filter_comm' (l : List (Nat × ℚ)) (p q : Nat × ℚ → Bool) :
    (l.filter p).filter q = (l.filter q).filter p := by
  induction l with
  | nil => rfl
  | cons x xs ih =>
    by_cases hp : p x <;> by_cases hq : q x <;>
      simp [List.filter_cons, hp, hq, ih]

lemma filter_flatten' {α : Type} (L : List (List α)) (q : α → Bool) :
    L.flatten.filter q = (L.map (fun l => l.filter q)).flatten := by
  induction L with
  | nil => rfl
  | cons l ls ih => simp [List.filter_append, ih]

lemma filter_range_map_fst (ds : List Nat) (f : Nat → Nat × ℚ)
    (hf : ∀ d, (f d).1 = d) (lo hi : Nat) :
    (ds.map f).filter (fun p => lo ≤ p.1 ∧ p.1 ≤ hi)
      = (ds.filter (fun d => lo ≤ d ∧ d ≤ hi)).map f := by
  induction ds with
  | nil => rfl
  | cons e es ih =>
    rw [List.map_cons, List.filter_cons, List.filter_cons]
    by_cases h : lo ≤ e ∧ e ≤ hi
    · have h1 : decide (lo ≤ (f e).1 ∧ (f e).1 ≤ hi) = true := by
        rw [hf e]; exact decide_eq_true h
      rw [if_pos h1, if_pos (decide_eq_true h), List.map_cons, ih]
    · have h1 : ¬decide (lo ≤ (f e).1 ∧ (f e).1 ≤ hi) = true := by
        rw [hf e]; simp [h]
      rw [if_neg h1, if_neg (by simp [h]), ih]

lemma daySum_filter_range (dt : List (Nat × ℚ)) {d lo hi : Nat}
    (hd : lo ≤ d ∧ d ≤ hi) :
    daySum (dt.filter (fun p => lo ≤ p.1 ∧ p.1 ≤ hi)) d = daySum dt d := by
  unfold daySum
  have heq : (dt.filter (fun p => lo ≤ p.1 ∧ p.1 ≤ hi)).filter (fun p => p.1 = d)
      = dt.filter (fun p => p.1 = d) := by
    induction dt with
    | nil => rfl
    | cons p rest ih =>
      by_cases h2 : lo ≤ p.1 ∧ p.1 ≤ hi
      · rw [List.filter_cons, if_pos (by simp [h2]), List.filter_cons,
          List.filter_cons]
        by_cases h : p.1 = d
        · rw [if_pos (by simp [h]), if_pos (by simp [h]), ih]
        · rw [if_neg (by simp [h]), if_neg (by simp [h]), ih]
      · have h : ¬p.1 = d := fun hh => h2 (hh ▸ hd)
        rw [List.filter_cons, if_neg (by simp [h2]), List.filter_cons,
          if_neg (by simp [h]), ih]
  rw [heq]

lemma merged_range_sum_eq_flatten (tables : List (List (Nat × ℚ))) (lo hi : Nat) :
    (((mergecftb tables).filter (fun p => lo ≤ p.1 ∧ p.1 ≤ hi)).map Prod.snd).sum
      = ((tables.flatten.filter (fun p => lo ≤ p.1 ∧ p.1 ≤ hi)).map Prod.snd).sum := by
  have h0 : mergecftb tables
      = ((sortedDates tables.flatten).map
          (fun d => (d, daySum tables.flatten d))).filter (fun p => p.2 ≠ 0) := rfl
  rw [h0, filter_comm', sum_filter_snd_ne_zero,
    filter_range_map_fst _ _ (fun _ => rfl) lo hi, List.map_map]
  have h1 : (Prod.snd ∘ fun d => (d, daySum tables.flatten d))
      = fun d => daySum tables.flatten d := rfl
  rw [h1]
  have h2 : ((sortedDates tables.flatten).filter
        (fun d => lo ≤ d ∧ d ≤ hi)).map (fun d => daySum tables.flatten d)
      = ((sortedDates tables.flatten).filter
        (fun d => lo ≤ d ∧ d ≤ hi)).map
          (fun d => daySum (tables.flatten.filter
            (fun p => lo ≤ p.1 ∧ p.1 ≤ hi)) d) := by
    refine List.map_congr_left ?_
    intro d hd
    obtain ⟨_, hdr⟩ := List.mem_filter.mp hd
    exact (daySum_filter_range tables.flatten (of_decide_eq_true hdr)).symm
  rw [h2]
  refine sum_fiberwise _ _ ((sortedDates_nodup tables.flatten).filter _) ?_
  intro p hp
  obtain ⟨hpdt, hpr⟩ := List.mem_filter.mp hp
  exact List.mem_filter.mpr
    ⟨sortedDates_mem.mpr (List.mem_map_of_mem Prod.fst hpdt), hpr⟩

lemma flatten_range_sum (tables : List (List (Nat × ℚ))) (lo hi : Nat) :
    ((tables.flatten.filter (fun p => lo ≤ p.1 ∧ p.1 ≤ hi)).map Prod.snd).sum
      = (tables.map (fun t =>
          ((t.filter (fun p => lo ≤ p.1 ∧ p.1 ≤ hi)).map Prod.snd).sum)).sum := by
  induction tables with
  | nil => rfl
  | cons t ts ih =>
    rw [List.flatten_cons, List.filter_append, List.map_append, List.sum_append,
      ih, List.map_cons, List.sum_cons]

/-! ### Helper lemmas about the closed-portfolio construction -/

lemma vcashStep_spec (myround : ℚ → ℚ) (cashobj : CashInfo) (p : Nat × ℚ)
    (v : ℚ) (h : vcashStep myround cashobj p = some v) :
    v = (if p.2 < 0
          then myround (p.2 / (priceAsOf cashobj.price p.1).getD 0)
          else p.2)
      ∧ (p.2 < 0 → (priceAsOf cashobj.price p.1).isSome) := by
  unfold vcashStep at h
  by_cases hneg : p.2 < 0
  · rw [if_pos hneg] at h
    obtain ⟨nv, hnv, hv⟩ := Option.map_eq_some'.mp h
    rw [if_pos hneg, hnv]
    exact ⟨hv.symm, fun _ => rfl⟩
  · rw [if_neg hneg] at h
    rw [if_neg hneg]
    exact ⟨(Option.some.inj h).symm, fun hc => absurd hc hneg⟩

lemma vcashList_spec (myround : ℚ → ℚ) (cashobj : CashInfo) :
    ∀ (l : List (Nat × ℚ)) (cashl : List ℚ),
      vcashList myround cashobj l = some cashl →
      cashl = l.map (fun p =>
          if p.2 < 0 then myround (p.2 / (priceAsOf cashobj.price p.1).getD 0)
          else p.2)
        ∧ ∀ p ∈ l, p.2 < 0 → (priceAsOf cashobj.price p.1).isSome := by
  intro l
  induction l with
  | nil =>
    intro cashl h
    refine ⟨(Option.some.inj h).symm, ?_⟩
    intro p hp
    cases hp
  | cons p rest ih =>
    intro cashl h
    simp only [vcashList] at h
    obtain ⟨v, hv, hrest⟩ := Option.bind_eq_some.mp h
    obtain ⟨cs, hcs, hcons⟩ := Option.map_eq_some'.mp hrest
    obtain ⟨iheq, ihsome⟩ := ih cs hcs
    obtain ⟨hveq, hvsome⟩ := vcashStep_spec myround cashobj p v hv
    constructor
    · rw [← hcons, List.map_cons, ← iheq, ← hveq]
    · intro q hq
      rcases List.mem_cons.mp hq with rfl | hq'
      · exact hvsome
      · exact ihsome q hq'

lemma vcashList_isSome (myround : ℚ → ℚ) (cashobj : CashInfo)
    (l : List (Nat × ℚ))
    (h : ∀ p ∈ l, p.2 < 0 → (priceAsOf cashobj.price p.1).isSome) :
    ∃ cashl, vcashList myround cashobj l = some cashl := by
  induction l with
  | nil => exact ⟨[], rfl⟩
  | cons p rest ih =>
    obtain ⟨cs, hcs⟩ := ih (fun q hq => h q (List.mem_cons_of_mem p hq))
    have hstep : ∃ v, vcashStep myround cashobj p = some v := by
      unfold vcashStep
      by_cases hneg : p.2 < 0
      · rw [if_pos hneg]
        obtain ⟨nv, hnv⟩ := Option.isSome_iff_exists.mp
          (h p (List.mem_cons_self p rest) hneg)
        exact ⟨myround (p.2 / nv), by rw [hnv]; rfl⟩
      · exact ⟨p.2, by rw [if_neg hneg]⟩
    obtain ⟨v, hv⟩ := hstep
    refine ⟨v :: cs, ?_⟩
    simp only [vcashList, hv, hcs, Option.map_some']
    rfl

lemma zip_map_fst (l : List (Nat × ℚ)) (g : Nat × ℚ → ℚ) :
    (l.map Prod.fst).zip (l.map g) = l.map (fun p => (p.1, g p)) := by
  induction l with
  | nil => rfl
  | cons p rest ih => simp only [List.map_cons, List.zip_cons_cons, ih]

lemma mulfixInit_ok_inv (myround : ℚ → ℚ)
    (mktrade : CashInfo → List (Nat × ℚ) → FundTrade) (funds : List FundTrade)
    (totmoney : ℚ) (cashobj : CashInfo) (obj : MulFix)
    (h : mulfixInit myround mktrade funds totmoney cashobj = Except.ok obj) :
    ∃ d0 a0 rest nst,
      mergecftb (funds.map FundTrade.cftable) = (d0, a0) :: rest
      ∧ vcash myround totmoney ((d0, a0) :: rest) cashobj = some nst
      ∧ ¬bottleneck ((d0, a0) :: rest) > totmoney
      ∧ nst.head? = some (d0, totmoney + a0)
      ∧ obj = { fundtradeobj := funds ++ [mktrade cashobj nst],
                totmoney := totmoney,
                totcftable := [(d0, -totmoney)] } := by
  cases hm : mergecftb (funds.map FundTrade.cftable) with
  | nil =>
    exfalso
    have hnone : mulfixInit myround mktrade funds totmoney cashobj
        = Except.error PortfolioError.indexError := by
      simp only [mulfixInit, mulInit, hm, vcash]
    rw [hnone] at h
    cases h
  | cons hd tl =>
    obtain ⟨d0, a0⟩ := hd
    cases hcl : vcashList myround cashobj tl with
    | none =>
      exfalso
      have hnone : mulfixInit myround mktrade funds totmoney cashobj
          = Except.error PortfolioError.indexError := by
        simp only [mulfixInit, mulInit, hm, vcash, hcl, Option.none_bind,
          Option.map_none']
      rw [hnone] at h
      cases h
    | some cashl =>
      have hred : mulfixInit myround mktrade funds totmoney cashobj
          = if bottleneck ((d0, a0) :: tl) > totmoney
            then Except.error PortfolioError.tradeBehaviorError
            else Except.ok
              { fundtradeobj :=
                  funds ++ [mktrade cashobj
                    ((d0, totmoney + a0) :: (tl.map Prod.fst).zip cashl)],
                totmoney := totmoney,
                totcftable := [(d0, -totmoney)] } := by
        simp only [mulfixInit, mulInit, hm, vcash, hcl, Option.map_some']
      rw [hred] at h
      by_cases hb : bottleneck ((d0, a0) :: tl) > totmoney
      · rw [if_pos hb] at h
        cases h
      · rw [if_neg hb] at h
        refine ⟨d0, a0, tl, (d0, totmoney + a0) :: (tl.map Prod.fst).zip cashl,
          rfl, ?_, hb, rfl, (Except.ok.inj h).symm⟩
        simp only [vcash, hcl, Option.map_some']

/-! ## Claim theorems -/

/-- C4: for every collection of position cash-flow tables, the merged table
contains exactly the distinct dates whose per-date sum of amounts across all
positions is non-zero, in strictly ascending date order, each date carrying
that per-date sum; zero positions yield an empty table, and (by the
characterization) no entry has amount exactly zero. -/
theorem mergecftb_grouped_sum_spec (tables : List (List (Nat × ℚ))) :
    List.Pairwise (fun p q : Nat × ℚ => p.1 < q.1) (mergecftb tables)
    ∧ (∀ d a, (d, a) ∈ mergecftb tables ↔
        d ∈ tables.flatten.map Prod.fst ∧ a = daySum tables.flatten d
          ∧ daySum tables.flatten d ≠ 0)
    ∧ mergecftb [] = [] :=
  ⟨mergecftb_pairwise tables, fun _ _ => mem_mergecftb, rfl⟩

/-- C5: the merge is order-independent: permuting the collection of input
position tables yields an identical merged table. -/
theorem mergecftb_perm_invariant {tables1 tables2 : List (List (Nat × ℚ))}
    (h : tables1.Perm tables2) : mergecftb tables1 = mergecftb tables2 := by
  have hflat : tables1.flatten.Perm tables2.flatten := h.flatten
  show ((sortedDates tables1.flatten).map
      (fun d => (d, daySum tables1.flatten d))).filter (fun p => p.2 ≠ 0) = _
  rw [sortedDates_perm_eq hflat,
    List.map_congr_left (fun d _ => by rw [daySum_perm hflat] :
      ∀ d ∈ sortedDates tables2.flatten,
        (d, daySum tables1.flatten d) = (d, daySum tables2.flatten d))]
  rfl

/-- C5 witness: a concrete pair of permuted position collections. -/
theorem mergecftb_perm_invariant_witness :
    ([[((1 : Nat), (2 : ℚ))], [(3, 4)]] : List (List (Nat × ℚ))).Perm
        [[(3, 4)], [(1, 2)]]
    ∧ mergecftb [[((1 : Nat), (2 : ℚ))], [(3, 4)]]
        = mergecftb [[(3, 4)], [(1, 2)]] :=
  ⟨by decide, mergecftb_perm_invariant (by decide)⟩

/-- C6: for every collection of position cash-flow tables and every date
range `[lo, hi]`, the sum of the merged table's amounts with dates in range
equals the sum over all positions of their original amounts with dates in
range. -/
theorem mergecftb_range_sum_preserved (tables : List (List (Nat × ℚ)))
    (lo hi : Nat) :
    (((mergecftb tables).filter (fun p => lo ≤ p.1 ∧ p.1 ≤ hi)).map Prod.snd).sum
      = (tables.map (fun t =>
          ((t.filter (fun p => lo ≤ p.1 ∧ p.1 ≤ hi)).map Prod.snd).sum)).sum :=
  (merged_range_sum_eq_flatten tables lo hi).trans (flatten_range_sum tables lo hi)

/-- C1: whenever `mulfix` construction succeeds, the resulting aggregate
cash-flow table is exactly one row whose date is the first date of the raw
merged table and whose amount is `-totmoney`. -/
theorem mulfix_closed_aggregate_table (myround : ℚ → ℚ)
    (mktrade : CashInfo → List (Nat × ℚ) → FundTrade) (funds : List FundTrade)
    (totmoney : ℚ) (cashobj : CashInfo) (obj : MulFix)
    (h : mulfixInit myround mktrade funds totmoney cashobj = Except.ok obj) :
    ∃ d0 a0 rest, mergecftb (funds.map FundTrade.cftable) = (d0, a0) :: rest
      ∧ obj.totcftable = [(d0, -totmoney)] := by
  obtain ⟨d0, a0, rest, nst, hm, hv, hb, hhd, hobj⟩ :=
    mulfixInit_ok_inv myround mktrade funds totmoney cashobj obj h
  exact ⟨d0, a0, rest, hm, by rw [hobj]⟩

/-- C1 witness: the spec's worked scenario (positions A and B, total
investment 300) built concretely; the closed aggregate table is `[(1, -300)]`. -/
theorem mulfix_closed_aggregate_table_witness :
    mulfixInit id demoMkTrade [fundA, fundB] 300 demoCashInfo
        = Except.ok { fundtradeobj := [fundA, fundB, demoCashTrade],
                      totmoney := 300, totcftable := [(1, -300)] }
    ∧ ∃ d0 a0 rest,
        mergecftb ([fundA, fundB].map FundTrade.cftable) = (d0, a0) :: rest
        ∧ ({ fundtradeobj := [fundA, fundB, demoCashTrade], totmoney := 300,
             totcftable := [(1, -300)] } : MulFix).totcftable
            = [(d0, -(300 : ℚ))] := by
  have hok : mulfixInit id demoMkTrade [fundA, fundB] 300
        demoCashInfo
      = Except.ok { fundtradeobj := [fundA, fundB, demoCashTrade],
                    totmoney := 300, totcftable := [(1, -300)] } := by
    norm_num [mulfixInit, mulInit, mergecftb, sortedDates, daySum, fundA, fundB,
      vcash, vcashList, vcashStep, priceAsOf, bottleneck, negCumSums,
      demoCashInfo, demoMkTrade, List.insertionSort, List.orderedInsert,
      List.filter, List.sum, max_def]
  exact ⟨hok, mulfix_closed_aggregate_table _ _ _ _ _ _ hok⟩

/-- C2: for positive `totmoney` and a price series covering the merged dates,
`mulfix` construction raises `TradeBehaviorError` (the spec's
`InsufficientCapitalError`) exactly when the peak exposure (bottleneck) of
the raw merged table exceeds `totmoney`; a raise means no object is
produced (`Except.error` carries no portfolio). -/
theorem mulfix_insufficient_capital_iff (myround : ℚ → ℚ)
    (mktrade : CashInfo → List (Nat × ℚ) → FundTrade) (funds : List FundTrade)
    (totmoney : ℚ) (cashobj : CashInfo) (hpos : 0 < totmoney)
    (hprice : ∀ d ∈ (mergecftb (funds.map FundTrade.cftable)).map Prod.fst,
        (priceAsOf cashobj.price d).isSome) :
    mulfixInit myround mktrade funds totmoney cashobj
        = Except.error PortfolioError.tradeBehaviorError
      ↔ bottleneck (mergecftb (funds.map FundTrade.cftable)) > totmoney := by
  cases hm : mergecftb (funds.map FundTrade.cftable) with
  | nil =>
    have hnone : mulfixInit myround mktrade funds totmoney cashobj
        = Except.error PortfolioError.indexError := by
      simp only [mulfixInit, mulInit, hm, vcash]
    rw [hnone]
    constructor
    · intro hcontra
      exact absurd hcontra (by simp)
    · intro hb
      have h0 : bottleneck ([] : List (Nat × ℚ)) = 0 := rfl
      rw [h0] at hb
      exact absurd hpos (by linarith)
  | cons hd tl =>
    obtain ⟨d0, a0⟩ := hd
    rw [hm] at hprice
    have hcov : ∀ p ∈ tl, p.2 < 0 → (priceAsOf cashobj.price p.1).isSome := by
      intro p hp _
      refine hprice p.1 ?_
      rw [List.map_cons]
      exact List.mem_cons_of_mem _ (List.mem_map_of_mem Prod.fst hp)
    obtain ⟨cashl, hcl⟩ := vcashList_isSome myround cashobj tl hcov
    have hred : mulfixInit myround mktrade funds totmoney cashobj
        = if bottleneck ((d0, a0) :: tl) > totmoney
          then Except.error PortfolioError.tradeBehaviorError
          else Except.ok
            { fundtradeobj :=
                funds ++ [mktrade cashobj
                  ((d0, totmoney + a0) :: (tl.map Prod.fst).zip cashl)],
              totmoney := totmoney,
              totcftable := [(d0, -totmoney)] } := by
      simp only [mulfixInit, mulInit, hm, vcash, hcl, Option.map_some']
    rw [hred]
    by_cases hb : bottleneck ((d0, a0) :: tl) > totmoney
    · rw [if_pos hb]
      exact ⟨fun _ => hb, fun _ => rfl⟩
    · rw [if_neg hb]
      constructor
      · intro hcontra
        exact absurd hcontra (by simp)
      · intro hb'
        exact absurd hb' hb

/-- C2 witness: the spec's failing scenario — positions A and B (peak
exposure 150) with total investment 100: construction raises the error. -/
theorem mulfix_insufficient_capital_iff_witness :
    (0 : ℚ) < 100
    ∧ (∀ d ∈ (mergecftb ([fundA, fundB].map FundTrade.cftable)).map Prod.fst,
        (priceAsOf demoCashInfo.price d).isSome)
    ∧ (mulfixInit id demoMkTrade [fundA, fundB] 100 demoCashInfo
          = Except.error PortfolioError.tradeBehaviorError
        ↔ bottleneck (mergecftb ([fundA, fundB].map FundTrade.cftable)) > 100) := by
  have hpos : (0 : ℚ) < 100 := by norm_num
  have hprice : ∀ d ∈ (mergecftb ([fundA, fundB].map FundTrade.cftable)).map
        Prod.fst, (priceAsOf demoCashInfo.price d).isSome := by
    norm_num [mergecftb, sortedDates, daySum, fundA, fundB, List.insertionSort,
      List.orderedInsert, List.filter, priceAsOf, demoCashInfo]
  exact ⟨hpos, hprice,
    mulfix_insufficient_capital_iff id demoMkTrade [fundA, fundB]
      100 demoCashInfo hpos hprice⟩

/-- C3: for a non-empty merged table, the synthesized cash-leg table `_vcash`
produces pairs each merged date with: `totmoney + merged[0].amount` at the
first date; for each later row with `delta < 0`, `myround(delta / p)` where
`p` is the cash asset's most recent price at or before the row's date (the
lookup must succeed); and the raw `delta` when `delta ≥ 0`. -/
theorem vcash_synthetic_series_spec (myround : ℚ → ℚ) (totmoney : ℚ)
    (cashobj : CashInfo) (d0 : Nat) (a0 : ℚ) (rest : List (Nat × ℚ))
    (nst : List (Nat × ℚ))
    (h : vcash myround totmoney ((d0, a0) :: rest) cashobj = some nst) :
    nst = (d0, totmoney + a0) ::
        rest.map (fun p =>
          (p.1, if p.2 < 0
                then myround (p.2 / (priceAsOf cashobj.price p.1).getD 0)
                else p.2))
      ∧ ∀ p ∈ rest, p.2 < 0 → (priceAsOf cashobj.price p.1).isSome := by
  unfold vcash at h
  obtain ⟨cashl, hcl, hnst⟩ := Option.map_eq_some'.mp h
  obtain ⟨hceq, hsome⟩ := vcashList_spec myround cashobj rest cashl hcl
  refine ⟨?_, hsome⟩
  rw [← hnst, hceq, zip_map_fst]

/-- C3 witness: merged table `[(1, -150), (2, -50)]`, total investment 300,
identity rounding, cash price 1 from date 0: the synthetic series is
`[(1, 150), (2, -50)]` (the second row exercising the `delta < 0` branch). -/
theorem vcash_synthetic_series_spec_witness :
    vcash id 300 [(1, -150), (2, -50)] demoCashInfo = some [(1, 150), (2, -50)]
    ∧ (([(1, 150), (2, -50)] : List (Nat × ℚ))
        = (1, 300 + (-150 : ℚ)) ::
          ([((2 : Nat), (-50 : ℚ))].map (fun p =>
            (p.1, if p.2 < 0
                  then id (p.2 / (priceAsOf demoCashInfo.price p.1).getD 0)
                  else p.2)))
      ∧ ∀ p ∈ [((2 : Nat), (-50 : ℚ))], p.2 < 0
          → (priceAsOf demoCashInfo.price p.1).isSome) := by
  have h : vcash id 300 [(1, -150), (2, -50)] demoCashInfo
      = some [(1, 150), (2, -50)] := by
    norm_num [vcash, vcashList, vcashStep, priceAsOf, demoCashInfo]
  exact ⟨h, vcash_synthetic_series_spec id 300 demoCashInfo 1 (-150) [(2, -50)]
    [(1, 150), (2, -50)] h⟩

/-- C9: for a successfully constructed closed portfolio, `unitvalue(date)` is
the sum of all positions' current values as of `date` — the original
positions plus the appended synthetic cash position — divided by `totmoney`. -/
theorem mulfix_unitvalue_spec (myround : ℚ → ℚ)
    (mktrade : CashInfo → List (Nat × ℚ) → FundTrade) (funds : List FundTrade)
    (totmoney : ℚ) (cashobj : CashInfo) (obj : MulFix) (d : Nat)
    (h : mulfixInit myround mktrade funds totmoney cashobj = Except.ok obj) :
    ∃ nst, vcash myround totmoney (mergecftb (funds.map FundTrade.cftable))
          cashobj = some nst
      ∧ obj.fundtradeobj = funds ++ [mktrade cashobj nst]
      ∧ obj.totmoney = totmoney
      ∧ unitvalue obj d
          = ((funds.map (fun f => f.briefcurrentvalue d)).sum
              + (mktrade cashobj nst).briefcurrentvalue d) / totmoney := by
  obtain ⟨d0, a0, rest, nst, hm, hv, hb, hhd, hobj⟩ :=
    mulfixInit_ok_inv myround mktrade funds totmoney cashobj obj h
  refine ⟨nst, by rw [hm]; exact hv, by rw [hobj], by rw [hobj], ?_⟩
  rw [hobj]
  show ((funds ++ [mktrade cashobj nst]).map
      (fun f => f.briefcurrentvalue d)).sum / totmoney = _
  rw [List.map_append, List.sum_append]
  simp

/-- C9 witness: the concrete closed portfolio of the C1 witness, queried at
date 7. -/
theorem mulfix_unitvalue_spec_witness :
    mulfixInit id demoMkTrade [fundA, fundB] 300 demoCashInfo
        = Except.ok { fundtradeobj := [fundA, fundB, demoCashTrade],
                      totmoney := 300, totcftable := [(1, -300)] }
    ∧ ∃ nst, vcash id 300 (mergecftb ([fundA, fundB].map FundTrade.cftable))
            demoCashInfo = some nst
        ∧ ({ fundtradeobj := [fundA, fundB, demoCashTrade], totmoney := 300,
             totcftable := [(1, -300)] } : MulFix).fundtradeobj
            = [fundA, fundB] ++ [demoMkTrade demoCashInfo nst]
        ∧ ({ fundtradeobj := [fundA, fundB, demoCashTrade], totmoney := 300,
             totcftable := [(1, -300)] } : MulFix).totmoney = 300
        ∧ unitvalue ({ fundtradeobj := [fundA, fundB, demoCashTrade],
                       totmoney := 300, totcftable := [(1, -300)] } : MulFix) 7
            = (([fundA, fundB].map (fun f => f.briefcurrentvalue 7)).sum
                + (demoMkTrade demoCashInfo nst).briefcurrentvalue 7)
              / 300 := by
  have hok : mulfixInit id demoMkTrade [fundA, fundB] 300
        demoCashInfo
      = Except.ok { fundtradeobj := [fundA, fundB, demoCashTrade],
                    totmoney := 300, totcftable := [(1, -300)] } := by
    norm_num [mulfixInit, mulInit, mergecftb, sortedDates, daySum, fundA, fundB,
      vcash, vcashList, vcashStep, priceAsOf, bottleneck, negCumSums,
      demoCashInfo, demoMkTrade, List.insertionSort, List.orderedInsert,
      List.filter, List.sum, max_def]
  exact ⟨hok, mulfix_unitvalue_spec id demoMkTrade [fundA, fundB]
    300 demoCashInfo _ 7 hok⟩

/-- C10: when the raw merged table is empty (zero positions, or every date's
summed flow zero), `mulfix` construction fails with the uncaught `IndexError`
of `totcftable.iloc[0]` inside `_vcash` — not with the specified
`TradeBehaviorError` outcome. -/
theorem mulfix_empty_merge_index_failure (myround : ℚ → ℚ)
    (mktrade : CashInfo → List (Nat × ℚ) → FundTrade) (funds : List FundTrade)
    (totmoney : ℚ) (cashobj : CashInfo)
    (h : mergecftb (funds.map FundTrade.cftable) = []) :
    mulfixInit myround mktrade funds totmoney cashobj
        = Except.error PortfolioError.indexError
      ∧ mulfixInit myround mktrade funds totmoney cashobj
        ≠ Except.error PortfolioError.tradeBehaviorError := by
  have hnone : mulfixInit myround mktrade funds totmoney cashobj
      = Except.error PortfolioError.indexError := by
    simp only [mulfixInit, mulInit, h, vcash]
  exact ⟨hnone, by rw [hnone]; simp⟩

/-- C10 witness: the zero-position portfolio. -/
theorem mulfix_empty_merge_index_failure_witness :
    mergecftb (([] : List FundTrade).map FundTrade.cftable) = []
    ∧ mulfixInit id demoMkTrade [] 100 demoCashInfo
        = Except.error PortfolioError.indexError
    ∧ mulfixInit id demoMkTrade [] 100 demoCashInfo
        ≠ Except.error PortfolioError.tradeBehaviorError := by
  have h : mergecftb (([] : List FundTrade).map FundTrade.cftable) = [] := rfl
  have hc := mulfix_empty_merge_index_failure id demoMkTrade []
    100 demoCashInfo h
  exact ⟨h, hc.1, hc.2⟩

/-- C7 (code bug in the source): `combsummary(date)`'s total-row current-value
cell does NOT always equal `tot('基金现值', date)`: on the portfolio
`[demoFund]` queried at date 1, `combsummary` reports total current value 1
(reports as of date 1), while `tot` — which never passes its `date` argument
to `dailyreport()` — returns 0 (the report as of the definition-time default
date, here 0). -/
theorem combsummary_total_tot_mismatch :
    ((combsummary (fun _ _ => 0) (fun q _ => q) (mulInit [demoFund]) 1).find?
        (fun r => r.code = "total")).map Row.currentvalue = some 1
    ∧ tot 0 (mulInit [demoFund]) "基金现值" 1 = Except.ok 0
    ∧ (1 : ℚ) ≠ 0 := by
  refine ⟨?_, ?_, by norm_num⟩
  · norm_num [combsummary, mulInit, demoFund, demoReport, Report.toRow,
      mergecftb, sortedDates, daySum, bottleneck, negCumSums,
      List.insertionSort, List.orderedInsert, List.find?, List.filter, max_def]
    exact ⟨_, rfl, rfl⟩
  · have h : tot 0 (mulInit [demoFund]) "基金现值" 1
        = Except.ok (((0 : Nat) : ℚ) + 0) := rfl
    rw [h, Except.ok.injEq]
    norm_num

/-- C8 (code bug in the source): `tot(metric, date)` ignores its `date`
argument entirely (the source calls `fund.dailyreport()` without it), so it
is NOT the sum of the field as of the given date: on `[demoFund]` the field
`基金现值` as of date 1 is 1, yet `tot(…, 1)` returns 0 (the report as of the
default date 0).  An unrecognized field name does fail with the column-lookup
error (the spec's `UnknownMetricError`). -/
theorem tot_ignores_date_argument :
    (∀ (defaultDate : Nat) (m : Mul) (prop : String) (d1 d2 : Nat),
        tot defaultDate m prop d1 = tot defaultDate m prop d2)
    ∧ tot 0 (mulInit [demoFund]) "基金现值" 1 = Except.ok 0
    ∧ reportField (demoFund.dailyreport 1) "基金现值" = some 1
    ∧ tot 0 (mulInit [demoFund]) "bogus" 1
        = Except.error PortfolioError.keyError := by
  refine ⟨fun _ _ _ _ _ => rfl, ?_, ?_, rfl⟩
  · have h : tot 0 (mulInit [demoFund]) "基金现值" 1
        = Except.ok (((0 : Nat) : ℚ) + 0) := rfl
    rw [h, Except.ok.injEq]
    norm_num
  · have h : reportField (demoFund.dailyreport 1) "基金现值"
        = some ((1 : Nat) : ℚ) := rfl
    rw [h, Option.some.injEq]
    norm_num

end Xalpha
